import Mathlib

/-!
# Verification of the conversation-turn orchestration subsystem

Shallow embedding of the Go sources of the personal-ai-assistant repository:
`internal/chat/assistant/assistant.go` (title generation and the bounded
tool-calling reply loop), the weather service (`GetCurrentWeather` /
`GetForecast` clamping), and the chat server (`StartConversation`,
`ContinueConversation`, `generateTitle`, `normalizeTitle`, title LRU cache,
adaptive title budget).

Modelling conventions:
* Go strings are modelled at rune (Char) granularity; Go's byte-indexed
  truncation `s[:80]` is modelled as taking 80 characters.
* Network collaborators (the model provider, the weather HTTP API, the
  calendar feed, the Mongo repository) are abstracted as explicit
  input parameters carrying their outcome for the run under scrutiny.
* Message ids and timestamps are generated opaquely by the code and play no
  role in any property below; they are omitted from the `Message` record.
* Go `time.Duration` values are modelled as `Int` nanoseconds.
-/

namespace Paia

/-! ## String primitives (strings.TrimSpace / Trim / ReplaceAll / Contains) -/

/-- Go `unicode.IsSpace` restricted to the Latin-1 whitespace runes
(space, tab, newline, vertical tab, form feed, carriage return, NEL, NBSP). -/
def isGoSpace (c : Char) : Bool :=
  c.toNat = 32 || c.toNat = 9 || c.toNat = 10 || c.toNat = 11 ||
  c.toNat = 12 || c.toNat = 13 || c.toNat = 133 || c.toNat = 160

/-- Drop the characters satisfying `p` from both ends of a character list,
the semantics of Go's `strings.TrimFunc`. -/
def trimWhile (p : Char → Bool) (l : List Char) : List Char :=
  ((l.dropWhile p).reverse.dropWhile p).reverse

/-- Go `strings.ReplaceAll(s, "\n", " ")` at rune granularity. -/
def collapseNewlines (l : List Char) : List Char :=
  l.map fun c => if c = '\n' then ' ' else c

/-- Go `strings.TrimSpace`. -/
def goTrimSpace (s : String) : String :=
  String.mk (trimWhile isGoSpace s.data)

/-- Go `strings.Trim(s, cutset)`. -/
def goTrim (cutset : List Char) (s : String) : String :=
  String.mk (trimWhile (fun c => cutset.contains c) s.data)

/-- Go `strings.HasPrefix` on character lists. -/
def hasPre : List Char → List Char → Bool
  | [], _ => true
  | _ :: _, [] => false
  | a :: as, b :: bs => a = b && hasPre as bs

/-- Go `strings.Contains(s, sub)` on character lists. -/
def containsSub (sub : List Char) : List Char → Bool
  | [] => hasPre sub []
  | c :: rest => hasPre sub (c :: rest) || containsSub sub rest

/-! ## assistant.go: `isWeatherQuery` -/

/-- Keyword list of `isWeatherQuery` (assistant.go lines 20-23). -/
def weatherKeywords : List String :=
  ["weather", "temperature", "forecast", "climate", "hot", "cold", "rain",
   "snow", "sunny", "cloudy", "wind", "humidity", "°c", "°f",
   "celsius", "fahrenheit"]

/-- Function `isWeatherQuery` (assistant.go lines 18-31): lowercase the message and
test it for any weather keyword. -/
def isWeatherQuery (content : String) : Bool :=
  let lowered := String.mk (content.data.map Char.toLower)
  weatherKeywords.any fun k => containsSub k.data lowered.data

/-! ## Conversation data model (internal/chat/model) -/

inductive Role where
  | user
  | assistant
  | system
deriving DecidableEq, Repr

structure Message where
  role : Role
  content : String
deriving DecidableEq, Repr

structure Conversation where
  title : String
  messages : List Message
deriving DecidableEq, Repr

/-! ## assistant.go: `Assistant.Title` -/

/-- The title post-processing of `Assistant.Title` (assistant.go lines
108-114): replace newlines by spaces, trim the cutset `" \t\r\n-\"'"`,
truncate to 80 characters. -/
def titleCutset : List Char := [' ', '\t', '\r', '\n', '-', '"', Char.ofNat 39]

def titleNormalize (t : String) : String :=
  let t1 := goTrim titleCutset (String.mk (collapseNewlines t.data))
  if t1.length > 80 then String.mk (t1.data.take 80) else t1

/-- Function `Assistant.Title` (assistant.go lines 51-117).  The model provider is
abstracted as the outcome of the single completion call: either a transport
error or the list of choice contents.  The second component records whether
the provider was called at all. -/
def assistantTitle (provider : Except String (List String))
    (conv : Conversation) : (Except String String) × Bool :=
  if conv.messages.isEmpty then (.ok "An empty conversation", false)
  else
    match provider with
    | .error e => (.error e, true)
    | .ok [] => (.error "empty response from OpenAI for title generation", true)
    | .ok (c :: _) =>
      if goTrimSpace c = "" then
        (.error "empty response from OpenAI for title generation", true)
      else (.ok (titleNormalize c), true)

/-! ## Server: `normalizeTitle` and the title LRU (`generateTitle`) -/

/-- Function `normalizeTitle` (server source lines 540-546): trim whitespace after
replacing newlines with spaces, then truncate to 80 characters. -/
def normalizeTitle (s : String) : String :=
  let t := goTrimSpace (String.mk (collapseNewlines s.data))
  if t.length > 80 then String.mk (t.data.take 80) else t

/-- Spec-side description of the pre-cache normalization, following the
spec's words: strip leading and trailing whitespace **and quoting**,
collapse embedded newlines to spaces, truncate to 80 characters.  Kept
separate from `normalizeTitle` (the source transcription) so the two can be
compared. -/
def isWsOrQuote (c : Char) : Bool :=
  isGoSpace c || c = '"' || c = Char.ofNat 39

def specNormalizeTitle (s : String) : String :=
  String.mk ((trimWhile isWsOrQuote (collapseNewlines s.data)).take 80)

/-- Capacity handed to `lru.New` in `NewServer` (10_000). -/
def titleCacheCap : Nat := 10000

/-- The in-memory recency cache for titles, most recently used first. -/
structure TitleLRU where
  entries : List (String × String)
deriving Repr

def removeKey (k : String) (l : List (String × String)) :
    List (String × String) :=
  l.filter fun e => e.1 ≠ k

/-- Operation `lru.Cache.Get`: on a hit the entry moves to the front (recency). -/
def lruGet (c : TitleLRU) (k : String) : Option String × TitleLRU :=
  match c.entries.find? (fun e => e.1 = k) with
  | some ev => (some ev.2, ⟨(k, ev.2) :: removeKey k c.entries⟩)
  | none => (none, c)

/-- Operation `lru.Cache.Add`: insert at the front, evicting past capacity. -/
def lruAdd (c : TitleLRU) (k v : String) : TitleLRU :=
  ⟨(k, v) :: (removeKey k c.entries).take (titleCacheCap - 1)⟩

/-- Function `Server.generateTitle` (server source lines 486-512), single-threaded
view: the singleflight group degenerates to running the compute function
directly.  `computeRes` is the outcome `s.assist.Title` would produce.
Returns the result, the updated cache and whether compute was invoked. -/
def generateTitle (c : TitleLRU) (k : String)
    (computeRes : Except String String) :
    (Except String String) × TitleLRU × Bool :=
  match lruGet c k with
  | (some v, c1) => (.ok v, c1, false)
  | (none, _) =>
    match computeRes with
    | .ok t =>
      let nt := normalizeTitle t
      if nt ≠ "" then (.ok nt, lruAdd c k nt, true)
      else (.ok t, c, true)
    | .error e => (.error e, c, true)

/-! ## Server: adaptive title budget (`StartConversation` lines 410-420) -/

def nsPerMs : Int := 1000000

/-- The adaptive title budget computation of `StartConversation`: start from
15s; when a deadline is present, cap at the remaining time minus a 500ms
margin, substituting 500ms when that slack is non-positive.
`untilDeadline` is `time.Until(dl)` in nanoseconds. -/
def titleBudget (hasDeadline : Bool) (untilDeadline : Int) : Int :=
  let budget : Int := 15 * 1000 * nsPerMs
  if hasDeadline then
    let rem := untilDeadline - 500 * nsPerMs
    if rem < budget then
      (if rem ≤ 0 then 500 * nsPerMs else rem)
    else budget
  else budget

/-! ## Weather service (`GetCurrentWeather` / `GetForecast`) -/

/-- The weather HTTP collaborator: outcomes of the two endpoint queries.
`forecastQ` receives the day count actually written into the request URL. -/
structure WeatherSvc where
  currentQ : String → Except String String
  forecastQ : String → Int → Except String String

/-- The day-count clamp at the head of `WeatherService.GetForecast`:
out-of-range requests default to 3 days. -/
def clampDays (days : Int) : Int :=
  if days < 1 ∨ days > 14 then 3 else days

def getCurrentWeather (w : WeatherSvc) (location : String) :
    Except String String :=
  w.currentQ location

def getForecast (w : WeatherSvc) (location : String) (days : Int) :
    Except String String :=
  w.forecastQ location (clampDays days)

/-! ## Holiday events (`get_holidays` handler, assistant.go lines 281-326) -/

structure Date where
  y : Nat
  m : Nat
  d : Nat
deriving DecidableEq, Repr

def Date.key (dt : Date) : Nat := dt.y * 10000 + dt.m * 100 + dt.d

/-- Go `time.Time.After`. -/
def Date.after (a b : Date) : Bool := b.key < a.key

/-- Go `time.Time.Before`. -/
def Date.before (a b : Date) : Bool := a.key < b.key

def pad2 (n : Nat) : String :=
  if n < 10 then "0" ++ toString n else toString n

def pad4 (n : Nat) : String :=
  if n < 10 then "000" ++ toString n
  else if n < 100 then "00" ++ toString n
  else if n < 1000 then "0" ++ toString n
  else toString n

/-- Go `date.Format(time.DateOnly)`. -/
def Date.fmt (dt : Date) : String :=
  pad4 dt.y ++ "-" ++ pad2 dt.m ++ "-" ++ pad2 dt.d

/-- Parsed `get_holidays` arguments.  Absent timestamps unmarshal to Go's
zero time (`IsZero` true), modelled as `none`; an absent `max_count`
unmarshals to 0. -/
structure HolidayArgs where
  beforeDate : Option Date
  afterDate : Option Date
  maxCount : Int
deriving Repr

/-- One calendar event: `GetAllDayStartAt` outcome (skipped on error) and the
summary property. -/
abbrev Event := Option Date × String

/-- Check `date.After(payload.BeforeDate)` guarded by `IsZero`. -/
def afterBound (p : HolidayArgs) (d : Date) : Bool :=
  match p.beforeDate with
  | some b => d.after b
  | none => false

/-- Check `date.Before(payload.AfterDate)` guarded by `IsZero`. -/
def beforeBound (p : HolidayArgs) (d : Date) : Bool :=
  match p.afterDate with
  | some a => d.before a
  | none => false

/-- The filtering loop of the `get_holidays` case: walk the feed in order,
skip events without a parsable date, break once `max_count` lines were
collected (when positive), drop events after `before_date` or before
`after_date`, and render survivors as `"date: name"`. -/
def holidayLoop (p : HolidayArgs) :
    List Event → List String → List String
  | [], acc => acc
  | e :: rest, acc =>
    match e.1 with
    | none => holidayLoop p rest acc
    | some date =>
      if p.maxCount > 0 ∧ p.maxCount ≤ (acc.length : Int) then acc
      else if afterBound p date then holidayLoop p rest acc
      else if beforeBound p date then holidayLoop p rest acc
      else holidayLoop p rest (acc ++ [date.fmt ++ ": " ++ e.2])

/-- The spec's description of the same filter: keep events not after
`before_date` and not before `after_date`, in feed order, render each as
`"date: name"`, truncate at `max_count` when given and positive. -/
def keepEvent (p : HolidayArgs) (d : Date) : Bool :=
  !(afterBound p d) && !(beforeBound p d)

def specLines (p : HolidayArgs) (events : List Event) : List String :=
  events.filterMap fun e =>
    match e.1 with
    | some d => if keepEvent p d then some (d.fmt ++ ": " ++ e.2) else none
    | none => none

def holidaysSpec (p : HolidayArgs) (events : List Event) : List String :=
  if p.maxCount > 0 then (specLines p events).take p.maxCount.toNat
  else specLines p events

/-! ## The reply tool loop (`Assistant.Reply`, assistant.go lines 119-344) -/

/-- Parsed `get_weather` arguments; `forecast_days` is a nullable pointer. -/
structure WeatherArgs where
  location : String
  forecastDays : Option Int
deriving Repr

/-- One tool call as the dispatch switch sees it.  The constructor encodes
the function name; `other` covers any name outside the declared tool set.
Argument payloads carry their JSON unmarshalling outcome. -/
inductive ToolCall where
  | getWeather (id : String) (args : Except String WeatherArgs)
  | getTodayDate (id : String)
  | getHolidays (id : String) (args : Except String HolidayArgs)
  | other (id name : String)

def ToolCall.isKnown : ToolCall → Bool
  | .other _ _ => false
  | _ => true

/-- Messages of the in-flight model exchange. -/
inductive ChatMsg where
  | system (content : String)
  | user (content : String)
  | assistant (content : String)
  | assistantCalls (calls : List ToolCall)
  | tool (content : String) (id : String)

/-- One completion choice: final content and tool calls. -/
structure Choice where
  content : String
  toolCalls : List ToolCall

/-- One completion response. -/
structure Resp where
  choices : List Choice

/-- Ambient collaborators of the reply loop: the optional weather service
(`nil` when `WEATHER_API_KEY` is unset), the formatted current time, and the
calendar feed load outcome. -/
structure Env where
  weatherService : Option WeatherSvc
  now : String
  calendar : Except Unit (List Event)

/-- The weather branch selection (assistant.go lines 267-271): a present and
positive `forecast_days` requests a forecast, anything else requests current
conditions. -/
def weatherFetch (svc : WeatherSvc) (p : WeatherArgs) : Except String String :=
  match p.forecastDays with
  | some fd =>
    if fd > 0 then getForecast svc p.location fd
    else getCurrentWeather svc p.location
  | none => getCurrentWeather svc p.location

/-- Dispatch of a single tool call (the switch of assistant.go lines
247-329): recoverable failures become the textual tool-result message to
append; only an unknown tool name is a fatal error. -/
def dispatchCall (env : Env) : ToolCall → Except String ChatMsg
  | .getWeather id parsed =>
    match parsed with
    | .error e =>
      .ok (.tool ("failed to parse weather request arguments: " ++ e) id)
    | .ok p =>
      match env.weatherService with
      | none =>
        .ok (.tool ("Weather service is not configured. " ++
          "Please set WEATHER_API_KEY environment variable.") id)
      | some svc =>
        match weatherFetch svc p with
        | .error e =>
          .ok (.tool ("Failed to get weather information: " ++ e) id)
        | .ok info => .ok (.tool info id)
  | .getTodayDate id => .ok (.tool env.now id)
  | .getHolidays id parsed =>
    match env.calendar with
    | .error _ => .ok (.tool "failed to load holiday events" id)
    | .ok events =>
      match parsed with
      | .error e =>
        .ok (.tool ("failed to parse tool call arguments: " ++ e) id)
      | .ok p =>
        .ok (.tool (String.intercalate "\n" (holidayLoop p events [])) id)
  | .other _ name => .error ("unknown tool call: " ++ name)

/-- Dispatch every tool call of a round in order, appending one tool-result
message per call; an unknown tool aborts the whole reply. -/
def dispatchCalls (env : Env) :
    List ToolCall → List ChatMsg → Except String (List ChatMsg)
  | [], msgs => .ok msgs
  | c :: rest, msgs =>
    match dispatchCall env c with
    | .error e => .error e
    | .ok m => dispatchCalls env rest (msgs ++ [m])

/-- The bounded loop body (`for i := 0; i < 15; i++`).  `stub` abstracts the
model provider: the response returned by the completion call of round `i`.
The second component counts the model calls actually made. -/
def replyAux (env : Env) (stub : Nat → Resp) :
    Nat → Nat → List ChatMsg → (Except String String) × Nat
  | 0, _, _ => (.error "too many tool calls, unable to generate reply", 0)
  | n + 1, i, msgs =>
    let resp := stub i
    match resp.choices with
    | [] => (.error "no choices returned by OpenAI", 1)
    | choice :: _ =>
      if choice.toolCalls.isEmpty then (.ok choice.content, 1)
      else
        match dispatchCalls env choice.toolCalls
            (msgs ++ [.assistantCalls choice.toolCalls]) with
        | .error e => (.error e, 1)
        | .ok msgs' =>
          let r := replyAux env stub n (i + 1) msgs'
          (r.1, r.2 + 1)

/-- The system prompt of `Assistant.Reply` (condensed transcription; its
exact wording is never inspected by the loop). -/
def replySystemPrompt : String :=
  "You are a helpful AI assistant with access to specialized tools."

/-- The forced-function-usage rewrite applied to weather-flavoured user
messages (assistant.go line 172). -/
def weatherRewritePre : String :=
  "IMPORTANT: You MUST use the get_weather function to answer this " ++
  "question. Do NOT generate weather information from your training data. " ++
  "Extract the location and forecast_days (if any) from the " ++
  "user\x27s text. Question: "

/-- Initial exchange history: the system prompt followed by the conversation
messages, user messages rewritten when they look weather-related; roles
other than user/assistant are skipped by the switch. -/
def initMsgs (conv : Conversation) : List ChatMsg :=
  .system replySystemPrompt :: conv.messages.filterMap fun m =>
    match m.role with
    | .user => some (.user (if isWeatherQuery m.content
        then weatherRewritePre ++ m.content else m.content))
    | .assistant => some (.assistant m.content)
    | .system => none

/-- Function `Assistant.Reply`: guard against empty conversations, then run at most
15 rounds. -/
def reply (env : Env) (stub : Nat → Resp) (conv : Conversation) :
    (Except String String) × Nat :=
  if conv.messages.isEmpty then (.error "conversation has no messages", 0)
  else replyAux env stub 15 0 (initMsgs conv)

/-- A model response whose first choice carries at least one tool call, all
of them naming declared tools (no final answer this round). -/
def goodToolRound (r : Resp) : Prop :=
  ∃ ch rest, r.choices = ch :: rest ∧ ch.toolCalls ≠ [] ∧
    ∀ c ∈ ch.toolCalls, c.isKnown = true

/-! ## Server orchestration: `StartConversation` / `ContinueConversation`

Each handler is modelled as a function from the outcomes of its
collaborator calls to its RPC result together with the trace of
store/generation events it performs, in program order.  The two generation
tasks of `StartConversation` run concurrently; the trace order between them
is an explicit parameter (`titleFirst`) so properties hold for every
interleaving. -/

inductive TwirpErr where
  | requiredArgument (field : String)
  | internalError (msg : String)
  | storeError (msg : String)
deriving DecidableEq, Repr

/-- Observable events of a turn.  Store writes carry the message list they
persist and whether the write succeeded. -/
inductive Ev where
  | createConv (msgs : List Message) (ok : Bool)
  | updateConv (msgs : List Message) (ok : Bool)
  | describeConv
  | titleGen
  | replyGen
deriving DecidableEq, Repr

def Ev.isGen : Ev → Bool
  | .titleGen => true
  | .replyGen => true
  | _ => false

/-- Does this event durably store message `m`? -/
def Ev.stores (e : Ev) (m : Message) : Bool :=
  match e with
  | .createConv msgs true => decide (m ∈ msgs)
  | .updateConv msgs true => decide (m ∈ msgs)
  | _ => false

/-- Every generation event of the trace is preceded by an event that durably
stores `m` (scanned left to right; `seen` records whether such a store
happened already). -/
def genAfterStore (m : Message) (seen : Bool) : List Ev → Bool
  | [] => true
  | e :: rest =>
    (if e.isGen then seen else true) &&
      genAfterStore m (seen || e.stores m) rest

/-- Collaborator outcomes for one `StartConversation` run. -/
structure StartParams where
  message : String
  createOk : Bool
  titleRes : Except String String
  replyRes : Except String String
  updateOk : Bool
  titleFirst : Bool

def startUserMsg (p : StartParams) : Message := ⟨.user, p.message⟩

/-- The title kept by the title task: empty (default retained) on error or
whitespace-only result, otherwise the trimmed generated title. -/
def startTitleStr (p : StartParams) : String :=
  match p.titleRes with
  | .error _ => ""
  | .ok t0 => goTrimSpace t0

/-- Function `Server.StartConversation` (server source lines 381-482): validate,
create the conversation with the user message, fork title and reply
generation, merge, append the assistant message and issue a non-fatal final
update. -/
def startConversation (p : StartParams) :
    (Except TwirpErr (String × String)) × List Ev :=
  if goTrimSpace p.message = "" then
    (.error (.requiredArgument "message"), [])
  else
    let msgs0 := [startUserMsg p]
    if !p.createOk then
      (.error (.storeError "create failed"), [.createConv msgs0 false])
    else
      let genEvs := if p.titleFirst then [Ev.titleGen, Ev.replyGen]
                    else [Ev.replyGen, Ev.titleGen]
      let evs0 := Ev.createConv msgs0 true :: genEvs
      match p.replyRes with
      | .error e => (.error (.internalError e), evs0)
      | .ok r =>
        let t := startTitleStr p
        let title := if t ≠ "" then t else "Untitled conversation"
        let msgs1 := msgs0 ++ [⟨.assistant, r⟩]
        (.ok (title, r), evs0 ++ [.updateConv msgs1 p.updateOk])

/-- Collaborator outcomes for one `ContinueConversation` run. -/
structure ContinueParams where
  conversationId : String
  message : String
  describeRes : Except String Conversation
  replyRes : Except String String
  updateOk : Bool

def continueUserMsg (p : ContinueParams) : Message := ⟨.user, p.message⟩

/-- Function `Server.ContinueConversation` (server source lines 548-588): validate,
load the conversation, append the user message in memory only, generate the
reply, append the assistant message, and persist everything in one final
update whose failure fails the turn. -/
def continueConversation (p : ContinueParams) :
    (Except TwirpErr String) × List Ev :=
  if p.conversationId = "" then
    (.error (.requiredArgument "conversation_id"), [])
  else if goTrimSpace p.message = "" then
    (.error (.requiredArgument "message"), [])
  else
    match p.describeRes with
    | .error e => (.error (.storeError e), [.describeConv])
    | .ok conv =>
      let msgs1 := conv.messages ++ [continueUserMsg p]
      match p.replyRes with
      | .error e =>
        (.error (.internalError e), [.describeConv, .replyGen])
      | .ok r =>
        let msgs2 := msgs1 ++ [⟨.assistant, r⟩]
        if p.updateOk then
          (.ok r, [.describeConv, .replyGen, .updateConv msgs2 true])
        else
          (.error (.internalError "update failed"),
           [.describeConv, .replyGen, .updateConv msgs2 false])

/-! ## Helper lemmas -/

theorem trimWhile_sublist (p : Char → Bool) (l : List Char) :
    List.Sublist (trimWhile p l) l := by
  unfold trimWhile
  have h1 : List.Sublist ((l.dropWhile p).reverse.dropWhile p)
      (l.dropWhile p).reverse := List.dropWhile_sublist p
  have h2 := h1.reverse
  rw [List.reverse_reverse] at h2
  exact h2.trans (List.dropWhile_sublist p)

theorem mem_collapseNewlines_ne (l : List Char) (c : Char)
    (hc : c ∈ collapseNewlines l) : c ≠ '\n' := by
  unfold collapseNewlines at hc
  obtain ⟨a, _, rfl⟩ := List.mem_map.mp hc
  by_cases ha : a = '\n' <;> simp [ha]

/-- The `if len > 80 then truncate` tail shared by both normalizations
equals an unconditional 80-character take. -/
theorem truncIf_eq (l : List Char) :
    (if (String.mk l).length > 80 then String.mk ((String.mk l).data.take 80)
     else String.mk l) = String.mk (l.take 80) := by
  by_cases h : (String.mk l).length > 80
  · rw [if_pos h]
  · rw [if_neg h]
    have hle : l.take 80 = l := List.take_of_length_le (Nat.le_of_not_lt h)
    rw [hle]

theorem normalizeTitle_char_eq (s : String) :
    normalizeTitle s =
      String.mk ((trimWhile isGoSpace (collapseNewlines s.data)).take 80) :=
  truncIf_eq (trimWhile isGoSpace (collapseNewlines s.data))

theorem titleNormalize_char_eq (s : String) :
    titleNormalize s =
      String.mk ((trimWhile (fun c => titleCutset.contains c)
        (collapseNewlines s.data)).take 80) :=
  truncIf_eq (trimWhile (fun c => titleCutset.contains c)
    (collapseNewlines s.data))

theorem lruGet_none (c : TitleLRU) (k : String)
    (h : (lruGet c k).1 = none) : lruGet c k = (none, c) := by
  unfold lruGet at h ⊢
  cases hf : c.entries.find? (fun e => e.1 = k) with
  | none => rfl
  | some ev => rw [hf] at h; simp at h

theorem lruGet_add_self (c : TitleLRU) (k v : String) :
    ∃ c1, lruGet (lruAdd c k v) k = (some v, c1) := by
  unfold lruGet lruAdd
  simp [List.find?]

theorem specLines_cons_none (p : HolidayArgs) (nm : String)
    (rest : List Event) :
    specLines p ((none, nm) :: rest) = specLines p rest := rfl

theorem specLines_cons_some (p : HolidayArgs) (d : Date) (nm : String)
    (rest : List Event) :
    specLines p ((some d, nm) :: rest) =
      (if keepEvent p d then [d.fmt ++ ": " ++ nm] else []) ++
        specLines p rest := by
  unfold specLines
  rw [List.filterMap_cons]
  by_cases h : keepEvent p d <;> simp [h]

/-- The accumulator/break loop of `get_holidays` computes: the feed-order
filtered and rendered lines, truncated at what remains of the
`max_count` budget. -/
theorem holidayLoop_eq (p : HolidayArgs) (events : List Event) :
    ∀ acc : List String,
    holidayLoop p events acc =
      acc ++ (if p.maxCount > 0
              then (specLines p events).take (p.maxCount.toNat - acc.length)
              else specLines p events) := by
  induction events with
  | nil =>
    intro acc
    simp [holidayLoop, specLines]
  | cons e rest ih =>
    intro acc
    obtain ⟨od, nm⟩ := e
    cases od with
    | none =>
      have hl : holidayLoop p ((none, nm) :: rest) acc =
          holidayLoop p rest acc := rfl
      rw [hl, specLines_cons_none, ih acc]
    | some d =>
      have hstep : holidayLoop p ((some d, nm) :: rest) acc =
          (if p.maxCount > 0 ∧ p.maxCount ≤ (acc.length : Int) then acc
           else if afterBound p d then holidayLoop p rest acc
           else if beforeBound p d then holidayLoop p rest acc
           else holidayLoop p rest (acc ++ [d.fmt ++ ": " ++ nm])) := rfl
      by_cases hbreak : p.maxCount > 0 ∧ p.maxCount ≤ (acc.length : Int)
      · rw [hstep, if_pos hbreak, if_pos hbreak.1]
        have h0 : p.maxCount.toNat - acc.length = 0 := by omega
        rw [h0]
        simp
      · rw [hstep, if_neg hbreak]
        by_cases haft : afterBound p d
        · have hk : keepEvent p d = false := by simp [keepEvent, haft]
          rw [if_pos haft, ih acc, specLines_cons_some, hk]
          simp
        · rw [if_neg haft]
          by_cases hbef : beforeBound p d
          · have hk : keepEvent p d = false := by simp [keepEvent, hbef]
            rw [if_pos hbef, ih acc, specLines_cons_some, hk]
            simp
          · have hk : keepEvent p d = true := by simp [keepEvent, haft, hbef]
            rw [if_neg hbef, ih (acc ++ [d.fmt ++ ": " ++ nm]),
              specLines_cons_some, hk]
            simp only [if_true, List.length_append, List.length_cons,
              List.length_nil, List.singleton_append, List.append_assoc]
            by_cases hpos : p.maxCount > 0
            · rw [if_pos hpos, if_pos hpos]
              have hsplit : p.maxCount.toNat - acc.length =
                  (p.maxCount.toNat - (acc.length + 1)) + 1 := by omega
              rw [hsplit, List.take_succ_cons]
            · rw [if_neg hpos, if_neg hpos]

theorem dispatchCall_known_ok (env : Env) (c : ToolCall)
    (h : c.isKnown = true) : ∃ m, dispatchCall env c = .ok m := by
  cases hd : dispatchCall env c with
  | ok m => exact ⟨m, rfl⟩
  | error e =>
    exfalso
    cases c with
    | other id nm => simp [ToolCall.isKnown] at h
    | getWeather id parsed =>
      cases parsed with
      | error e2 => simp [dispatchCall] at hd
      | ok p =>
        cases hws : env.weatherService with
        | none => simp [dispatchCall, hws] at hd
        | some svc =>
          cases hwf : weatherFetch svc p <;>
            simp [dispatchCall, hws, hwf] at hd
    | getTodayDate id => simp [dispatchCall] at hd
    | getHolidays id parsed =>
      cases hcal : env.calendar with
      | error u => simp [dispatchCall, hcal] at hd
      | ok events => cases parsed <;> simp [dispatchCall, hcal] at hd

theorem dispatchCalls_known_ok (env : Env) (calls : List ToolCall)
    (h : ∀ c ∈ calls, c.isKnown = true) :
    ∀ msgs, ∃ msgs', dispatchCalls env calls msgs = .ok msgs' := by
  induction calls with
  | nil => intro msgs; exact ⟨msgs, rfl⟩
  | cons c rest ih =>
    intro msgs
    obtain ⟨m, hm⟩ := dispatchCall_known_ok env c (h c (by simp))
    have hrest : ∀ c2 ∈ rest, c2.isKnown = true :=
      fun c2 hc2 => h c2 (by simp [hc2])
    obtain ⟨msgs', hms⟩ := ih hrest (msgs ++ [m])
    refine ⟨msgs', ?_⟩
    have hstep : dispatchCalls env (c :: rest) msgs =
        match dispatchCall env c with
        | .error e => .error e
        | .ok m0 => dispatchCalls env rest (msgs ++ [m0]) := rfl
    rw [hstep, hm]
    exact hms

/-- One unfolding of the loop body at positive fuel. -/
theorem replyAux_succ (env : Env) (stub : Nat → Resp) (n i : Nat)
    (msgs : List ChatMsg) :
    replyAux env stub (n + 1) i msgs =
      match (stub i).choices with
      | [] => (.error "no choices returned by OpenAI", 1)
      | choice :: _ =>
        if choice.toolCalls.isEmpty then (.ok choice.content, 1)
        else
          match dispatchCalls env choice.toolCalls
              (msgs ++ [.assistantCalls choice.toolCalls]) with
          | .error e => (.error e, 1)
          | .ok msgs' =>
            ((replyAux env stub n (i + 1) msgs').1,
             (replyAux env stub n (i + 1) msgs').2 + 1) := rfl

/-- The loop performs at most `n` model calls with fuel `n`. -/
theorem replyAux_count_le (env : Env) (stub : Nat → Resp) :
    ∀ (n i : Nat) (msgs : List ChatMsg),
    (replyAux env stub n i msgs).2 ≤ n := by
  intro n
  induction n with
  | zero => intro i msgs; exact Nat.le_refl 0
  | succ n ih =>
    intro i msgs
    rw [replyAux_succ]
    cases hc : (stub i).choices with
    | nil => exact Nat.succ_le_succ (Nat.zero_le n)
    | cons choice rest =>
      dsimp only
      by_cases hempty : choice.toolCalls.isEmpty = true
      · rw [if_pos hempty]
        exact Nat.succ_le_succ (Nat.zero_le n)
      · rw [if_neg hempty]
        cases hd : dispatchCalls env choice.toolCalls
            (msgs ++ [.assistantCalls choice.toolCalls]) with
        | error e => exact Nat.succ_le_succ (Nat.zero_le n)
        | ok msgs2 => exact Nat.succ_le_succ (ih (i + 1) msgs2)

/-- With every remaining round yielding known-tool calls and no final
answer, the loop exhausts its fuel exactly and fails. -/
theorem replyAux_tool_rounds (env : Env) (stub : Nat → Resp) :
    ∀ (n i : Nat) (msgs : List ChatMsg),
    (∀ j, i ≤ j → j < i + n → goodToolRound (stub j)) →
    replyAux env stub n i msgs =
      (.error "too many tool calls, unable to generate reply", n) := by
  intro n
  induction n with
  | zero => intro i msgs _; rfl
  | succ n ih =>
    intro i msgs h
    obtain ⟨ch, rest, hc, hne, hknown⟩ := h i (Nat.le_refl i) (by omega)
    rw [replyAux_succ, hc]
    dsimp only
    have hempty : ch.toolCalls.isEmpty = false := by
      cases htc : ch.toolCalls with
      | nil => exact absurd htc hne
      | cons a as => rfl
    rw [if_neg (by simp [hempty])]
    obtain ⟨msgs', hms⟩ := dispatchCalls_known_ok env ch.toolCalls hknown
      (msgs ++ [.assistantCalls ch.toolCalls])
    rw [hms]
    dsimp only
    rw [ih (i + 1) msgs' (fun j hj1 hj2 => h j (by omega) (by omega))]

theorem genAfterStore_of_seen (m : Message) (l : List Ev) :
    genAfterStore m true l = true := by
  induction l with
  | nil => rfl
  | cons e rest ih => simp [genAfterStore, ih]

/-! ## Theorems -/

/-- Claim C9: For every turn with an overall deadline, the title sub-deadline
equals `min(15s, remaining − 500ms)`, and equals 500ms whenever that
computed value would be non-positive. -/
theorem C9_title_budget (untilD : Int) :
    (0 < untilD - 500 * nsPerMs →
      titleBudget true untilD =
        min (15 * 1000 * nsPerMs) (untilD - 500 * nsPerMs)) ∧
    (untilD - 500 * nsPerMs ≤ 0 →
      titleBudget true untilD = 500 * nsPerMs) := by
  refine ⟨fun h => ?_, fun h => ?_⟩
  · simp only [titleBudget, nsPerMs] at h ⊢
    rw [min_def]
    split_ifs <;> omega
  · simp only [titleBudget, nsPerMs] at h ⊢
    split_ifs <;> omega

theorem C9_title_budget_witness :
    0 < (20 * 1000000000 : Int) - 500 * nsPerMs ∧
    titleBudget true (20 * 1000000000) =
      min (15 * 1000 * nsPerMs) ((20 * 1000000000 : Int) - 500 * nsPerMs) :=
  ⟨by decide, (C9_title_budget (20 * 1000000000)).1 (by decide)⟩

/-- Claim C10: For a conversation with zero messages, the title operation
returns the fixed string `"An empty conversation"` with no error and
without calling the model provider. -/
theorem C10_empty_conversation_title (provider : Except String (List String))
    (conv : Conversation) (h : conv.messages = []) :
    assistantTitle provider conv = (.ok "An empty conversation", false) := by
  unfold assistantTitle
  simp [h]

theorem C10_empty_conversation_title_witness :
    assistantTitle (.error "provider down") ⟨"t", []⟩ =
      (.ok "An empty conversation", false) :=
  C10_empty_conversation_title (.error "provider down") ⟨"t", []⟩ rfl

/-- Claim C5: `get_weather` dispatch: an absent or non-positive
`forecast_days` fetches only current conditions; a positive one fetches a
forecast with the requested day count clamped into the capability's
supported range (out-of-range values default to 3, which lies in 1..14). -/
theorem C5_weather_dispatch (svc : WeatherSvc) (loc : String) :
    (weatherFetch svc ⟨loc, none⟩ = getCurrentWeather svc loc) ∧
    (∀ d : Int, d ≤ 0 →
      weatherFetch svc ⟨loc, some d⟩ = getCurrentWeather svc loc) ∧
    (∀ d : Int, 0 < d →
      weatherFetch svc ⟨loc, some d⟩ = svc.forecastQ loc (clampDays d) ∧
      (1 ≤ d ∧ d ≤ 14 → clampDays d = d) ∧
      1 ≤ clampDays d ∧ clampDays d ≤ 14) := by
  refine ⟨rfl, ?_, ?_⟩
  · intro d hd
    unfold weatherFetch
    simp [not_lt.mpr hd]
  · intro d hd
    refine ⟨?_, ?_, ?_, ?_⟩
    · unfold weatherFetch getForecast
      simp [hd]
    · intro hin
      unfold clampDays
      split_ifs <;> omega
    · unfold clampDays
      split_ifs <;> omega
    · unfold clampDays
      split_ifs <;> omega

theorem C5_weather_dispatch_witness :
    (0 : Int) < 20 ∧
    weatherFetch ⟨fun _ => .ok "cur", fun _ d => .ok (toString d)⟩
        ⟨"Barcelona", some 20⟩ =
      Except.ok (toString (clampDays 20)) ∧
    clampDays 20 = 3 := by
  refine ⟨by decide, ?_, by decide⟩
  exact (C5_weather_dispatch
    ⟨fun _ => .ok "cur", fun _ d => .ok (toString d)⟩ "Barcelona").2.2
    20 (by decide) |>.1

/-- Claim C4, counterexample: The normalization applied before caching
(`normalizeTitle`) does **not** strip quoting: a title wrapped in double
quotes is cached verbatim, while the spec-described normalization
(`specNormalizeTitle`) removes the quotes.  Quote stripping happens earlier,
inside `Assistant.Title` itself. -/
theorem C4_counterexample :
    normalizeTitle "\"Weather in Barcelona\"" = "\"Weather in Barcelona\"" ∧
    specNormalizeTitle "\"Weather in Barcelona\"" = "Weather in Barcelona" ∧
    normalizeTitle "\"Weather in Barcelona\"" ≠
      specNormalizeTitle "\"Weather in Barcelona\"" := by
  decide

/-- Claim C4, amended: The pre-cache normalization (`normalizeTitle`) collapses
embedded newlines to spaces, strips leading and trailing whitespace (but not
quoting), and truncates to 80 characters; the quote stripping the claim
mentions is performed inside title generation (`titleNormalize`), which
trims whitespace, dashes and quote characters from both ends after
collapsing newlines, truncating to 80 characters.  Consequently the cached
value is at most 80 characters and contains no newline. -/
theorem C4_normalization (s : String) :
    normalizeTitle s =
      String.mk ((trimWhile isGoSpace (collapseNewlines s.data)).take 80) ∧
    titleNormalize s =
      String.mk ((trimWhile (fun c => titleCutset.contains c)
        (collapseNewlines s.data)).take 80) ∧
    (normalizeTitle s).length ≤ 80 ∧
    ∀ c ∈ (normalizeTitle s).data, c ≠ '\n' := by
  refine ⟨normalizeTitle_char_eq s, titleNormalize_char_eq s, ?_, ?_⟩
  · rw [normalizeTitle_char_eq s]
    exact List.length_take_le 80 _
  · intro c hc
    rw [normalizeTitle_char_eq s] at hc
    have h1 : c ∈ trimWhile isGoSpace (collapseNewlines s.data) :=
      (List.take_sublist _ _).mem hc
    have h2 : c ∈ collapseNewlines s.data :=
      (trimWhile_sublist _ _).mem h1
    exact mem_collapseNewlines_ne _ c h2

theorem C4_normalization_witness :
    normalizeTitle " Weather\nreport " = "Weather report" ∧
    ('\n' ∈ (normalizeTitle " Weather\nreport ").data → False) :=
  ⟨by decide,
   fun h => (C4_normalization " Weather\nreport ").2.2.2 '\n' h rfl⟩

/-- Claim C3: `generateTitle` caches only successful computations whose
normalized result is non-empty: such a result is cached and a subsequent
call with the same key returns it without invoking compute again; a
computation whose normalization is empty returns the raw result and caches
nothing, so a later call computes again; a failed computation caches
nothing either. -/
theorem C3_title_cache_policy (c : TitleLRU) (k t : String)
    (hmiss : (lruGet c k).1 = none) :
    (normalizeTitle t ≠ "" →
      generateTitle c k (.ok t) =
        (.ok (normalizeTitle t), lruAdd c k (normalizeTitle t), true) ∧
      ∀ r2 : Except String String,
        (generateTitle (lruAdd c k (normalizeTitle t)) k r2).1 =
          .ok (normalizeTitle t) ∧
        (generateTitle (lruAdd c k (normalizeTitle t)) k r2).2.2 = false) ∧
    (normalizeTitle t = "" →
      generateTitle c k (.ok t) = (.ok t, c, true) ∧
      ∀ r2 : Except String String,
        (generateTitle c k r2).2.2 = true) ∧
    (∀ e, generateTitle c k (.error e) = (.error e, c, true)) := by
  have hm := lruGet_none c k hmiss
  refine ⟨fun hnt => ⟨?_, fun r2 => ?_⟩, fun hnt => ⟨?_, fun r2 => ?_⟩,
    fun e => ?_⟩
  · unfold generateTitle
    rw [hm]
    simp [hnt]
  · obtain ⟨c1, hc1⟩ := lruGet_add_self c k (normalizeTitle t)
    unfold generateTitle
    rw [hc1]
    exact ⟨rfl, rfl⟩
  · unfold generateTitle
    rw [hm]
    simp [hnt]
  · unfold generateTitle
    rw [hm]
    cases r2 with
    | ok t2 => by_cases h2 : normalizeTitle t2 ≠ "" <;> simp [h2]
    | error e => rfl
  · unfold generateTitle
    rw [hm]

theorem C3_title_cache_policy_witness :
    generateTitle ⟨[]⟩ "k" (.ok " Trip planning ") =
      (.ok "Trip planning", lruAdd ⟨[]⟩ "k" "Trip planning", true) ∧
    (generateTitle (lruAdd ⟨[]⟩ "k" "Trip planning") "k" (.error "x")).1 =
      .ok "Trip planning" ∧
    (generateTitle (lruAdd ⟨[]⟩ "k" "Trip planning") "k" (.error "x")).2.2 =
      false := by
  have hnt : normalizeTitle " Trip planning " = "Trip planning" := by decide
  obtain ⟨h1, h2⟩ :=
    (C3_title_cache_policy ⟨[]⟩ "k" " Trip planning " rfl).1 (by decide)
  rw [hnt] at h1
  have h3 := h2 (.error "x")
  rw [hnt] at h3
  exact ⟨h1, h3.1, h3.2⟩

/-- Claim C6: The `get_holidays` handler returns exactly the events whose
date is not after `before_date` (when given) and not before `after_date`
(when given), in feed order, truncated at `max_count` when positive, one
line per event formatted `"date: name"`; instantiated on the spec's
three-event scenario with `after_date = 2024-02-01`, `max_count = 1`. -/
theorem C6_holiday_filtering :
    (∀ (p : HolidayArgs) (events : List Event),
      holidayLoop p events [] = holidaysSpec p events) ∧
    holidayLoop ⟨none, some ⟨2024, 2, 1⟩, 1⟩
      [(some ⟨2024, 1, 1⟩, "New Year"),
       (some ⟨2024, 6, 15⟩, "Feast Day"),
       (some ⟨2024, 12, 25⟩, "Christmas")] [] =
      ["2024-06-15: Feast Day"] := by
  constructor
  · intro p events
    rw [holidayLoop_eq]
    unfold holidaysSpec
    simp
  · decide

/-- Claim C2: The reply loop makes at most 15 rounds of model calls; when all
15 rounds yield known-tool calls and never a final answer, it fails with
the "too many tool calls" error after exactly 15 rounds. -/
theorem C2_tool_loop_bound :
    (∀ (env : Env) (stub : Nat → Resp) (conv : Conversation),
      (reply env stub conv).2 ≤ 15) ∧
    (∀ (env : Env) (stub : Nat → Resp) (conv : Conversation),
      conv.messages ≠ [] →
      (∀ j, j < 15 → goodToolRound (stub j)) →
      reply env stub conv =
        (.error "too many tool calls, unable to generate reply", 15)) := by
  constructor
  · intro env stub conv
    unfold reply
    by_cases h : conv.messages.isEmpty = true
    · rw [if_pos h]
      exact Nat.zero_le 15
    · rw [if_neg h]
      exact replyAux_count_le env stub 15 0 _
  · intro env stub conv hne hgood
    unfold reply
    have h : conv.messages.isEmpty = false := by
      cases hm : conv.messages with
      | nil => exact absurd hm hne
      | cons a as => rfl
    rw [if_neg (by simp [h])]
    exact replyAux_tool_rounds env stub 15 0 _
      (fun j hj1 hj2 => hgood j (by omega))

theorem C2_tool_loop_bound_witness :
    reply ⟨none, "now", .error ()⟩
        (fun _ => ⟨[⟨"", [.getTodayDate "1"]⟩]⟩)
        ⟨"t", [⟨.user, "hello"⟩]⟩ =
      (.error "too many tool calls, unable to generate reply", 15) := by
  refine C2_tool_loop_bound.2 _ _ _ (by simp) ?_
  intro j hj
  refine ⟨⟨"", [.getTodayDate "1"]⟩, [], rfl, by simp, ?_⟩
  intro c hc
  rw [List.mem_singleton] at hc
  rw [hc]
  rfl

/-- Claim C7: During tool dispatch, malformed arguments, an unconfigured
weather capability, and a capability-call failure each become a textual
tool-result message and the loop continues to the next round; a tool call
naming an unknown tool fails the loop immediately, after a single model
call, without attempting another round. -/
theorem C7_tool_error_policy :
    (∀ (env : Env) (id e : String),
      dispatchCall env (.getWeather id (.error e)) =
        .ok (.tool ("failed to parse weather request arguments: " ++ e) id)) ∧
    (∀ (env : Env) (id : String) (a : WeatherArgs),
      env.weatherService = none →
      dispatchCall env (.getWeather id (.ok a)) =
        .ok (.tool ("Weather service is not configured. " ++
          "Please set WEATHER_API_KEY environment variable.") id)) ∧
    (∀ (env : Env) (svc : WeatherSvc) (id e : String) (a : WeatherArgs),
      env.weatherService = some svc →
      weatherFetch svc a = .error e →
      dispatchCall env (.getWeather id (.ok a)) =
        .ok (.tool ("Failed to get weather information: " ++ e) id)) ∧
    (∀ (env : Env) (stub : Nat → Resp) (conv : Conversation)
        (c : ToolCall) (ans : String),
      conv.messages ≠ [] → c.isKnown = true →
      (stub 0).choices = [⟨"", [c]⟩] →
      (stub 1).choices = [⟨ans, []⟩] →
      reply env stub conv = (.ok ans, 2)) ∧
    (∀ (env : Env) (stub : Nat → Resp) (conv : Conversation)
        (id nm : String),
      conv.messages ≠ [] →
      (stub 0).choices = [⟨"", [ToolCall.other id nm]⟩] →
      reply env stub conv = (.error ("unknown tool call: " ++ nm), 1)) := by
  refine ⟨fun env id e => rfl, fun env id a hws => ?_,
    fun env svc id e a hws hwf => ?_, ?_, ?_⟩
  · simp [dispatchCall, hws]
  · simp [dispatchCall, hws, hwf]
  · intro env stub conv c ans hne hknown h0 h1
    unfold reply
    have hm : conv.messages.isEmpty = false := by
      cases hms : conv.messages with
      | nil => exact absurd hms hne
      | cons a as => rfl
    rw [if_neg (by simp [hm])]
    rw [show (15 : Nat) = 14 + 1 from rfl, replyAux_succ, h0]
    dsimp only
    rw [if_neg (by simp)]
    obtain ⟨m, hmc⟩ := dispatchCall_known_ok env c hknown
    have hstep : dispatchCalls env [c]
        (initMsgs conv ++ [.assistantCalls [c]]) =
        match dispatchCall env c with
        | .error e => .error e
        | .ok m0 =>
          dispatchCalls env [] (initMsgs conv ++ [.assistantCalls [c]] ++ [m0])
        := rfl
    rw [hstep, hmc]
    dsimp only
    have hnil : dispatchCalls env []
        (initMsgs conv ++ [ChatMsg.assistantCalls [c]] ++ [m]) =
        .ok (initMsgs conv ++ [ChatMsg.assistantCalls [c]] ++ [m]) := rfl
    rw [hnil]
    dsimp only
    rw [show (14 : Nat) = 13 + 1 from rfl, replyAux_succ,
      show (stub (0 + 1)).choices = [⟨ans, []⟩] from h1]
    simp
  · intro env stub conv id nm hne h0
    unfold reply
    have hm : conv.messages.isEmpty = false := by
      cases hms : conv.messages with
      | nil => exact absurd hms hne
      | cons a as => rfl
    rw [if_neg (by simp [hm])]
    rw [show (15 : Nat) = 14 + 1 from rfl, replyAux_succ, h0]
    dsimp only
    rw [if_neg (by simp)]
    have hstep : dispatchCalls env [ToolCall.other id nm]
        (initMsgs conv ++ [.assistantCalls [ToolCall.other id nm]]) =
        Except.error ("unknown tool call: " ++ nm) := rfl
    rw [hstep]

theorem C7_tool_error_policy_witness :
    dispatchCall ⟨none, "now", .error ()⟩ (.getWeather "1" (.error "bad json")) =
      .ok (.tool ("failed to parse weather request arguments: " ++ "bad json")
        "1") ∧
    dispatchCall ⟨none, "now", .error ()⟩
        (.getWeather "2" (.ok ⟨"Barcelona", none⟩)) =
      .ok (.tool ("Weather service is not configured. " ++
        "Please set WEATHER_API_KEY environment variable.") "2") ∧
    dispatchCall ⟨some ⟨fun _ => .error "boom", fun _ _ => .error "boom"⟩,
        "now", .error ()⟩ (.getWeather "3" (.ok ⟨"Nowhere", none⟩)) =
      .ok (.tool ("Failed to get weather information: " ++ "boom") "3") ∧
    reply ⟨none, "now", .error ()⟩
        (fun i => if i = 0 then ⟨[⟨"", [.getTodayDate "5"]⟩]⟩
                  else ⟨[⟨"done", []⟩]⟩)
        ⟨"t", [⟨.user, "hello"⟩]⟩ = (.ok "done", 2) ∧
    reply ⟨none, "now", .error ()⟩
        (fun _ => ⟨[⟨"", [.other "9" "mystery"]⟩]⟩)
        ⟨"t", [⟨.user, "hello"⟩]⟩ =
      (.error ("unknown tool call: " ++ "mystery"), 1) := by
  obtain ⟨h1, h2, h3, h4, h5⟩ := C7_tool_error_policy
  refine ⟨h1 _ "1" "bad json", h2 _ "2" ⟨"Barcelona", none⟩ rfl,
    h3 _ ⟨fun _ => .error "boom", fun _ _ => .error "boom"⟩ "3" "boom"
      ⟨"Nowhere", none⟩ rfl rfl,
    h4 _ _ _ (.getTodayDate "5") "done" (by simp) rfl rfl rfl,
    h5 _ _ _ "9" "mystery" (by simp) rfl⟩

/-- Claim C1, counterexample: In `ContinueConversation` the new user message
is *not* persisted before generation: with a failing reply generation the
turn performs a generation call yet no store write at all, so the user
message is lost — contradicting the claim for continuing turns. -/
theorem C1_counterexample :
    (continueConversation
      ⟨"c1", "hello", .ok ⟨"T", [⟨.user, "old"⟩]⟩, .error "model down",
        true⟩).1 = .error (.internalError "model down") ∧
    (continueConversation
      ⟨"c1", "hello", .ok ⟨"T", [⟨.user, "old"⟩]⟩, .error "model down",
        true⟩).2 = [.describeConv, .replyGen] ∧
    genAfterStore ⟨.user, "hello"⟩ false
      (continueConversation
        ⟨"c1", "hello", .ok ⟨"T", [⟨.user, "old"⟩]⟩, .error "model down",
          true⟩).2 = false :=
  ⟨rfl, rfl, rfl⟩

/-- Claim C1, amended: In `StartConversation` the new user message is always
persisted (by the create write) before any title or reply generation call.
In `ContinueConversation`, however, every turn that reaches generation
performs the reply generation call *before* any store write of the user
message, and when reply generation fails no event of the turn stores the
user message at all. -/
theorem C1_persist_ordering :
    (∀ p : StartParams,
      genAfterStore (startUserMsg p) false (startConversation p).2 = true) ∧
    (∀ p : ContinueParams,
      p.conversationId ≠ "" → goTrimSpace p.message ≠ "" →
      ∀ conv, p.describeRes = .ok conv →
      genAfterStore (continueUserMsg p) false
        (continueConversation p).2 = false) ∧
    (∀ (p : ContinueParams) (e : String), p.replyRes = .error e →
      (continueConversation p).2.filter
        (fun ev => ev.stores (continueUserMsg p)) = []) := by
  refine ⟨?_, ?_, ?_⟩
  · intro p
    unfold startConversation
    by_cases hv : goTrimSpace p.message = ""
    · rw [if_pos hv]
      rfl
    · rw [if_neg hv]
      cases hcr : p.createOk with
      | false => rfl
      | true =>
        cases ht : p.titleFirst <;> cases hr : p.replyRes <;>
          simp [genAfterStore, Ev.stores, Ev.isGen, genAfterStore_of_seen]
  · intro p hid hmsg conv hdesc
    unfold continueConversation
    rw [if_neg hid, if_neg hmsg, hdesc]
    cases hr : p.replyRes with
    | error e => simp [genAfterStore, Ev.stores, Ev.isGen]
    | ok r =>
      cases hu : p.updateOk <;>
        simp [genAfterStore, Ev.stores, Ev.isGen]
  · intro p e hr
    unfold continueConversation
    by_cases hid : p.conversationId = ""
    · rw [if_pos hid]
      rfl
    · rw [if_neg hid]
      by_cases hmsg : goTrimSpace p.message = ""
      · rw [if_pos hmsg]
        rfl
      · rw [if_neg hmsg]
        cases hd : p.describeRes with
        | error e2 => rfl
        | ok conv =>
          rw [hr]
          rfl

theorem C1_persist_ordering_witness :
    genAfterStore ⟨.user, "hello"⟩ false
      (startConversation ⟨"hello", true, .ok "T", .ok "R", true, true⟩).2 =
      true ∧
    genAfterStore ⟨.user, "hello"⟩ false
      (continueConversation
        ⟨"c1", "hello", .ok ⟨"T", []⟩, .ok "R", true⟩).2 = false := by
  constructor
  · exact C1_persist_ordering.1 ⟨"hello", true, .ok "T", .ok "R", true, true⟩
  · exact C1_persist_ordering.2.1
      ⟨"c1", "hello", .ok ⟨"T", []⟩, .ok "R", true⟩ (by decide) (by decide)
      ⟨"T", []⟩ rfl

/-- Claim C8, counterexample: In `ContinueConversation` a failure of the
final persistence write *does* fail the turn even though reply generation
succeeded: the computed reply is not returned. -/
theorem C8_counterexample :
    (continueConversation
      ⟨"c1", "hi", .ok ⟨"T", []⟩, .ok "the reply", false⟩).1 =
      .error (.internalError "update failed") ∧
    (continueConversation
      ⟨"c1", "hi", .ok ⟨"T", []⟩, .ok "the reply", false⟩).1 ≠
      .ok "the reply" :=
  ⟨rfl, fun h => Except.noConfusion h⟩

/-- Claim C8, amended: In `StartConversation` a final-write failure is
non-fatal: with a successful reply the handler returns the computed title
and reply regardless of the update outcome.  In `ContinueConversation` a
final-write failure fails the turn with an internal error despite the
successful reply. -/
theorem C8_final_write :
    (∀ p : StartParams, goTrimSpace p.message ≠ "" → p.createOk = true →
      ∀ r, p.replyRes = .ok r →
      (startConversation p).1 =
        .ok ((if startTitleStr p ≠ "" then startTitleStr p
              else "Untitled conversation"), r)) ∧
    (∀ p : ContinueParams,
      p.conversationId ≠ "" → goTrimSpace p.message ≠ "" →
      ∀ conv r, p.describeRes = .ok conv → p.replyRes = .ok r →
      p.updateOk = false →
      (continueConversation p).1 =
        .error (.internalError "update failed")) := by
  constructor
  · intro p hv hcr r hr
    unfold startConversation
    rw [if_neg hv, hcr, hr]
    rfl
  · intro p hid hmsg conv r hd hr hu
    unfold continueConversation
    rw [if_neg hid, if_neg hmsg, hd, hr, hu]
    rfl

theorem C8_final_write_witness :
    (startConversation
      ⟨"hi", true, .error "no title", .ok "sure", false, true⟩).1 =
      .ok ("Untitled conversation", "sure") ∧
    (continueConversation
      ⟨"c1", "hi", .ok ⟨"T", []⟩, .ok "sure", false⟩).1 =
      .error (.internalError "update failed") := by
  constructor
  · have h := C8_final_write.1
      ⟨"hi", true, .error "no title", .ok "sure", false, true⟩
      (by decide) rfl "sure" rfl
    rw [h]
    rfl
  · exact C8_final_write.2 ⟨"c1", "hi", .ok ⟨"T", []⟩, .ok "sure", false⟩
      (by decide) (by decide) ⟨"T", []⟩ "sure" rfl rfl rfl

end Paia
